import Mathlib

/-!
Verification of the popup placement and lifecycle engine
(`src/edgeware/src/features/popup.py`).

The Python code is shallowly embedded: Python integers become `ℤ`
(Python `//` and `%` with the positive divisors used here agree with
Lean's Euclidean `/` and `%` on `ℤ`), Python float arithmetic in the
placement weights is idealised over `ℝ`, opacity arithmetic over `ℚ`,
and the stateful lifecycle methods become explicit state-passing
functions.  Randomness is modelled by passing the drawn values as
arguments, so theorems quantify over every possible draw.
-/

namespace Edgeware

/-! ## Placement geometry (`Popup.compute_geometry`, lines 78-143)

The monitor rectangle is `(mx, my, mw, mh)` and the already-scaled popup
size is `(w, h)`. -/

/-- Lowkey-mode corner resolution (lines 89-91): `lowkey_corner == 4`
means a random corner, modelled by the supplied draw `rand`. -/
def resolve_corner (lowkey_corner : ℕ) (rand : ℕ) : ℕ :=
  if lowkey_corner = 4 then rand else lowkey_corner

/-- Lowkey-mode placement (lines 93-96): `right = corner == 0 or corner == 3`,
`bottom = corner == 2 or corner == 3`, then
`x = monitor.x + (monitor.width - width if right else 0)` and analogously
for `y`. -/
def lowkey_place (mx my mw mh w h : ℤ) (corner : ℕ) : ℤ × ℤ :=
  (mx + (if corner = 0 ∨ corner = 3 then mw - w else 0),
   my + (if corner = 2 ∨ corner = 3 then mh - h else 0))

/-- Number of grid cells along one axis (lines 104-108):
`range(area // side)` with `side = 50`; empty when the area is below 50
(including a negative area, since Python `range` of a negative bound is
empty and floor division of a negative area by 50 is negative; Euclidean
division by the positive constant 50 agrees with Python floor division). -/
def num_cells (area : ℤ) : ℕ :=
  (area / 50).toNat

/-- The candidate positions list built by the nested loops of
lines 107-128: `sx = x_index * side + monitor.x`,
`sy = y_index * side + monitor.y`, outer loop over `x_index`. -/
def grid_positions (mx my mw mh w h : ℤ) : List (ℤ × ℤ) :=
  (List.range (num_cells (mw - w))).flatMap fun (xi : ℕ) =>
    (List.range (num_cells (mh - h))).map fun (yi : ℕ) =>
      ((xi : ℤ) * 50 + mx, (yi : ℤ) * 50 + my)

/-- Upper end of the pixel range inside a chosen cell (lines 135-138):
`max_x = min_x + side`, then
`max_x += (area_width % side if area_width - max_x < side else 0) - 1`.
`area` is the axis placement area (e.g. `monitor.width - width`) and
`min_c` the chosen cell's absolute coordinate. -/
def cell_max (area min_c : ℤ) : ℤ :=
  min_c + 50 + (if area - (min_c + 50) < 50 then area % 50 else 0) - 1

/-- Normal-mode placement (lines 97-141) with the random draws made
explicit: `cell` indexes the weighted cell choice of line 132 and
`(fx, fy)` are the `random.randint` draws of lines 140-141, constrained
to their ranges.  Returns `none` exactly when the execution is
impossible: the candidate list has no such cell (in particular
`random.choices` raises on an empty candidate list) or the draws are out
of range. -/
def grid_pick (mx my mw mh w h : ℤ) (cell : ℕ) (fx fy : ℤ) : Option (ℤ × ℤ) :=
  (grid_positions mx my mw mh w h)[cell]?.bind fun q =>
    if q.1 ≤ fx ∧ fx ≤ cell_max (mw - w) q.1 ∧ q.2 ≤ fy ∧ fy ≤ cell_max (mh - h) q.2
    then some (fx, fy) else none

/-- Membership in the candidate list determines the cell indices. -/
theorem mem_grid_positions {mx my mw mh w h : ℤ} {p : ℤ × ℤ}
    (hp : p ∈ grid_positions mx my mw mh w h) :
    ∃ xi yi : ℕ, xi < num_cells (mw - w) ∧ yi < num_cells (mh - h) ∧
      p = ((xi : ℤ) * 50 + mx, (yi : ℤ) * 50 + my) := by
  unfold grid_positions at hp
  rw [List.mem_flatMap] at hp
  obtain ⟨xi, hxi, hp⟩ := hp
  rw [List.mem_map] at hp
  obtain ⟨yi, hyi, hp⟩ := hp
  exact ⟨xi, yi, List.mem_range.mp hxi, List.mem_range.mp hyi, hp.symm⟩

/-! ## Claims C1, C2, C4 -/

/-- C1 (amended): for every monitor `M` and popup size `P ≤ M`, lowkey
placement always returns a rectangle fully contained in `M`, and normal
grid placement returns a rectangle fully contained in `M` whenever it
returns one at all (i.e. whenever the candidate grid is nonempty and the
draws are in range). -/
theorem compute_geometry_contained (mx my mw mh w h : ℤ)
    (hwm : w ≤ mw) (hhm : h ≤ mh) :
    (∀ corner : ℕ,
      mx ≤ (lowkey_place mx my mw mh w h corner).1 ∧
      (lowkey_place mx my mw mh w h corner).1 + w ≤ mx + mw ∧
      my ≤ (lowkey_place mx my mw mh w h corner).2 ∧
      (lowkey_place mx my mw mh w h corner).2 + h ≤ my + mh) ∧
    (∀ (cell : ℕ) (fx fy x y : ℤ),
      grid_pick mx my mw mh w h cell fx fy = some (x, y) →
      mx ≤ x ∧ x + w ≤ mx + mw ∧ my ≤ y ∧ y + h ≤ my + mh) := by
  constructor
  · intro corner
    unfold lowkey_place
    constructor
    · split_ifs <;> omega
    constructor
    · split_ifs <;> omega
    constructor
    · split_ifs <;> omega
    · split_ifs <;> omega
  · intro cell fx fy x y hpick
    unfold grid_pick at hpick
    rcases hq : (grid_positions mx my mw mh w h)[cell]? with _ | ⟨min_x, min_y⟩
    · rw [hq] at hpick
      exact absurd hpick (by simp)
    · rw [hq] at hpick
      rw [Option.some_bind] at hpick
      split_ifs at hpick with hin
      obtain ⟨hfx, hfy⟩ : fx = x ∧ fy = y := by
        have h2 := Option.some.inj hpick
        exact ⟨congrArg Prod.fst h2, congrArg Prod.snd h2⟩
      subst hfx
      subst hfy
      obtain ⟨xi, yi, hxi, hyi, heq⟩ := mem_grid_positions (List.getElem?_mem hq)
      have hx1 : min_x = (xi : ℤ) * 50 + mx := congrArg Prod.fst heq
      have hy1 : min_y = (yi : ℤ) * 50 + my := congrArg Prod.snd heq
      unfold num_cells at hxi hyi
      unfold cell_max at hin
      split_ifs at hin <;> omega

/-- C1 counterexample to the claim as stated: with monitor
`(0, 0, 100, 100)` and popup size `(100, 100)` (so `P ≤ M` in both
dimensions), normal-mode placement builds an empty candidate list and so
returns no rectangle at all (`random.choices` raises there). -/
theorem compute_geometry_not_total :
    ((100 : ℤ) ≤ 100 ∧ (100 : ℤ) ≤ 100) ∧
    grid_positions 0 0 100 100 100 100 = [] ∧
    grid_pick 0 0 100 100 100 100 0 0 0 = none := by
  refine ⟨by decide, rfl, rfl⟩

/-- C2: with monitor `(0, 0, 100, 100)` and popup size `(60, 60)` the
placement area is `40 × 40`, smaller than one 50-pixel grid cell, and
the grid has zero cells rather than being clamped to 1×1: the candidate
list is empty, every cell choice is impossible, and `random.choices`
raises `IndexError` on the empty list, so placement fails instead of
succeeding. -/
theorem grid_degenerate_fails :
    num_cells (100 - 60) = 0 ∧
    grid_positions 0 0 100 100 60 60 = [] ∧
    grid_pick 0 0 100 100 60 60 0 0 0 = none := by
  refine ⟨rfl, rfl, rfl⟩

/-- C4 counterexample: `lowkey_corner = 1` on monitor `(0, 0, 1920, 1080)`
with popup size `(300, 200)` places at `(0, 0)` (top-left), not at the
top-right position `(1620, 0)` the claim demands. -/
theorem lowkey_corner_one_is_top_left :
    lowkey_place 0 0 1920 1080 300 200 1 = (0, 0) ∧
    lowkey_place 0 0 1920 1080 300 200 1 ≠ (1620, 0) := by
  decide

/-- C4 (amended): lowkey placement is deterministic at one of 4 corners
ordered top-right (0), top-left (1), bottom-left (2), bottom-right (3);
on monitor `(0, 0, 1920, 1080)` with popup size `(300, 200)`, corner 1
yields exactly `(0, 0, 300, 200)` every call, and the top-right rectangle
`(1620, 0, 300, 200)` is produced by corner 0; corner 4 resolves to the
supplied random corner, every other index to itself. -/
theorem lowkey_corner_order :
    lowkey_place 0 0 1920 1080 300 200 0 = (1620, 0) ∧
    lowkey_place 0 0 1920 1080 300 200 1 = (0, 0) ∧
    lowkey_place 0 0 1920 1080 300 200 2 = (0, 880) ∧
    lowkey_place 0 0 1920 1080 300 200 3 = (1620, 880) ∧
    resolve_corner 4 2 = 2 ∧ resolve_corner 1 2 = 1 := by
  decide

/-- C1 witness: the containment theorem applied to the concrete monitor
`(0, 0, 1920, 1080)` and popup size `(300, 200)`. -/
theorem compute_geometry_contained_witness :
    ((300 : ℤ) ≤ 1920 ∧ (200 : ℤ) ≤ 1080) ∧
    ((∀ corner : ℕ,
       (0 : ℤ) ≤ (lowkey_place 0 0 1920 1080 300 200 corner).1 ∧
       (lowkey_place 0 0 1920 1080 300 200 corner).1 + 300 ≤ 0 + 1920 ∧
       (0 : ℤ) ≤ (lowkey_place 0 0 1920 1080 300 200 corner).2 ∧
       (lowkey_place 0 0 1920 1080 300 200 corner).2 + 200 ≤ 0 + 1080) ∧
     (∀ (cell : ℕ) (fx fy x y : ℤ),
       grid_pick 0 0 1920 1080 300 200 cell fx fy = some (x, y) →
       (0 : ℤ) ≤ x ∧ x + 300 ≤ 0 + 1920 ∧ (0 : ℤ) ≤ y ∧ y + 200 ≤ 0 + 1080)) :=
  ⟨by decide, compute_geometry_contained 0 0 1920 1080 300 200 (by decide) (by decide)⟩

/-! ## Movement (`Popup.try_move`, lines 217-246)

One iteration of the `while True` loop of lines 226-241: advance the
position by the velocity, then negate a velocity component whenever the
rectangle's edge on that axis touches or crosses the monitor boundary
(`left = x <= monitor.x`, `right = x + width >= monitor.x + monitor.width`,
and analogously for the vertical axis). -/

/-- The mutable movement state: popup position and velocity. -/
structure MState where
  x : ℤ
  y : ℤ
  vx : ℤ
  vy : ℤ
deriving DecidableEq, Repr

/-- One iteration of the movement loop (lines 227-238). -/
def try_move_step (mx my mw mh w h : ℤ) (s : MState) : MState :=
  { x := s.x + s.vx
    y := s.y + s.vy
    vx := if s.x + s.vx ≤ mx ∨ s.x + s.vx + w ≥ mx + mw then -s.vx else s.vx
    vy := if s.y + s.vy ≤ my ∨ s.y + s.vy + h ≥ my + mh then -s.vy else s.vy }

/-- Inductive invariant of the movement loop: the velocity components
keep their initial magnitudes `sx`, `sy`, the position stays within the
monitor inflated by one velocity magnitude per axis, and whenever the
position is beyond a boundary the velocity already points back inside. -/
def move_inv (mx my mw mh w h sx sy : ℤ) (s : MState) : Prop :=
  (s.vx = sx ∨ s.vx = -sx) ∧ (s.vy = sy ∨ s.vy = -sy) ∧
  mx - sx ≤ s.x ∧ s.x ≤ mx + mw - w + sx ∧
  my - sy ≤ s.y ∧ s.y ≤ my + mh - h + sy ∧
  (mx + mw - w < s.x → s.vx < 0) ∧ (s.x < mx → 0 < s.vx) ∧
  (my + mh - h < s.y → s.vy < 0) ∧ (s.y < my → 0 < s.vy)

/-- The movement invariant is preserved by one loop iteration. -/
theorem move_inv_step (mx my mw mh w h sx sy : ℤ) (hsx : 0 ≤ sx) (hsy : 0 ≤ sy)
    (hwm : w ≤ mw) (hhm : h ≤ mh) (s : MState)
    (hs : move_inv mx my mw mh w h sx sy s) :
    move_inv mx my mw mh w h sx sy (try_move_step mx my mw mh w h s) := by
  obtain ⟨X, Y, VX, VY⟩ := s
  unfold move_inv at hs ⊢
  simp only [try_move_step] at hs ⊢
  split_ifs <;> omega

/-- C6 (amended): over any number of iterations the rectangle stays
within the monitor bounds inflated by the velocity magnitude on each
axis (it can overshoot a boundary transiently, by at most `|v|` pixels,
as the velocity is negated but the position is not clamped), and a
velocity component's sign flips in a step exactly when the rectangle's
edge touches or crosses the monitor boundary on that axis after the
step's position update. -/
theorem try_move_reflects (mx my mw mh w h : ℤ) (s0 : MState)
    (hwm : w ≤ mw ∧ h ≤ mh ∧ mx ≤ s0.x ∧ s0.x + w ≤ mx + mw ∧
           my ≤ s0.y ∧ s0.y + h ≤ my + mh) (n : ℕ) :
    (mx - |s0.vx| ≤ ((try_move_step mx my mw mh w h)^[n] s0).x ∧
     ((try_move_step mx my mw mh w h)^[n] s0).x + w ≤ mx + mw + |s0.vx| ∧
     my - |s0.vy| ≤ ((try_move_step mx my mw mh w h)^[n] s0).y ∧
     ((try_move_step mx my mw mh w h)^[n] s0).y + h ≤ my + mh + |s0.vy|) ∧
    (∀ s : MState,
      ((try_move_step mx my mw mh w h s).vx = -s.vx ∨
       (try_move_step mx my mw mh w h s).vx = s.vx) ∧
      (s.vx ≠ 0 →
        ((try_move_step mx my mw mh w h s).vx = -s.vx ↔
         ((try_move_step mx my mw mh w h s).x ≤ mx ∨
          mx + mw ≤ (try_move_step mx my mw mh w h s).x + w))) ∧
      ((try_move_step mx my mw mh w h s).vy = -s.vy ∨
       (try_move_step mx my mw mh w h s).vy = s.vy) ∧
      (s.vy ≠ 0 →
        ((try_move_step mx my mw mh w h s).vy = -s.vy ↔
         ((try_move_step mx my mw mh w h s).y ≤ my ∨
          my + mh ≤ (try_move_step mx my mw mh w h s).y + h)))) := by
  constructor
  · have hvx : s0.vx = |s0.vx| ∨ s0.vx = -|s0.vx| := by
      rcases abs_cases s0.vx with ⟨h1, _⟩ | ⟨h1, _⟩
      · exact Or.inl h1.symm
      · right
        omega
    have hvy : s0.vy = |s0.vy| ∨ s0.vy = -|s0.vy| := by
      rcases abs_cases s0.vy with ⟨h1, _⟩ | ⟨h1, _⟩
      · exact Or.inl h1.symm
      · right
        omega
    have habx : 0 ≤ |s0.vx| := abs_nonneg _
    have haby : 0 ≤ |s0.vy| := abs_nonneg _
    have hinv : move_inv mx my mw mh w h |s0.vx| |s0.vy|
        ((try_move_step mx my mw mh w h)^[n] s0) := by
      induction n with
      | zero =>
        rw [Function.iterate_zero_apply]
        refine ⟨hvx, hvy, by omega, by omega, by omega, by omega, ?_, ?_, ?_, ?_⟩ <;>
          · intro hc
            omega
      | succ n ih =>
        rw [Function.iterate_succ_apply']
        exact move_inv_step mx my mw mh w h _ _ habx haby hwm.1 hwm.2.1 _ ih
    obtain ⟨_, _, h3, h4, h5, h6, _, _, _, _⟩ := hinv
    omega
  · intro s
    obtain ⟨X, Y, VX, VY⟩ := s
    simp only [try_move_step]
    refine ⟨?_, ?_, ?_, ?_⟩
    · split_ifs <;> omega
    · intro hvx
      split_ifs with hc
      · simp only [ge_iff_le] at hc
        exact ⟨fun _ => by omega, fun _ => rfl⟩
      · simp only [ge_iff_le, not_or, not_le] at hc
        constructor
        · intro he
          omega
        · intro he
          omega
    · split_ifs <;> omega
    · intro hvy
      split_ifs with hc
      · simp only [ge_iff_le] at hc
        exact ⟨fun _ => by omega, fun _ => rfl⟩
      · simp only [ge_iff_le, not_or, not_le] at hc
        constructor
        · intro he
          omega
        · intro he
          omega

/-- C6 counterexample to the claim as stated: starting fully inside
monitor `(0, 0, 100, 100)` at position `(0, 0)` with popup size
`(10, 10)` and velocity `(-5, 3)`, a single movement step puts the
rectangle at `x = -5`, outside the monitor (the velocity is reflected
but the position is not clamped back inside). -/
theorem try_move_exits_monitor :
    ((0 : ℤ) ≤ 0 ∧ (0 : ℤ) + 10 ≤ 100) ∧
    (try_move_step 0 0 100 100 10 10 ⟨0, 0, -5, 3⟩).x = -5 ∧
    ¬ ((0 : ℤ) ≤ (try_move_step 0 0 100 100 10 10 ⟨0, 0, -5, 3⟩).x) := by
  decide

/-- C6 witness: the reflection theorem applied to monitor
`(0, 0, 100, 100)`, popup size `(10, 10)`, start state
`(0, 0, 5, -5)` and 4 steps. -/
theorem try_move_reflects_witness :
    ((10 : ℤ) ≤ 100 ∧ (10 : ℤ) ≤ 100 ∧
     (0 : ℤ) ≤ (MState.mk 0 0 5 (-5)).x ∧ (MState.mk 0 0 5 (-5)).x + 10 ≤ 0 + 100 ∧
     (0 : ℤ) ≤ (MState.mk 0 0 5 (-5)).y ∧ (MState.mk 0 0 5 (-5)).y + 10 ≤ 0 + 100) ∧
    ((0 - |(MState.mk 0 0 5 (-5)).vx| ≤ ((try_move_step 0 0 100 100 10 10)^[4] (MState.mk 0 0 5 (-5))).x ∧
      ((try_move_step 0 0 100 100 10 10)^[4] (MState.mk 0 0 5 (-5))).x + 10 ≤ 0 + 100 + |(MState.mk 0 0 5 (-5)).vx| ∧
      0 - |(MState.mk 0 0 5 (-5)).vy| ≤ ((try_move_step 0 0 100 100 10 10)^[4] (MState.mk 0 0 5 (-5))).y ∧
      ((try_move_step 0 0 100 100 10 10)^[4] (MState.mk 0 0 5 (-5))).y + 10 ≤ 0 + 100 + |(MState.mk 0 0 5 (-5)).vy|) ∧
     (∀ s : MState,
       ((try_move_step 0 0 100 100 10 10 s).vx = -s.vx ∨
        (try_move_step 0 0 100 100 10 10 s).vx = s.vx) ∧
       (s.vx ≠ 0 →
         ((try_move_step 0 0 100 100 10 10 s).vx = -s.vx ↔
          ((try_move_step 0 0 100 100 10 10 s).x ≤ 0 ∨
           0 + 100 ≤ (try_move_step 0 0 100 100 10 10 s).x + 10))) ∧
       ((try_move_step 0 0 100 100 10 10 s).vy = -s.vy ∨
        (try_move_step 0 0 100 100 10 10 s).vy = s.vy) ∧
       (s.vy ≠ 0 →
         ((try_move_step 0 0 100 100 10 10 s).vy = -s.vy ↔
          ((try_move_step 0 0 100 100 10 10 s).y ≤ 0 ∨
           0 + 100 ≤ (try_move_step 0 0 100 100 10 10 s).y + 10))))) :=
  ⟨by decide, try_move_reflects 0 0 100 100 10 10 (MState.mk 0 0 5 (-5)) (by decide) 4⟩

/-! ## Lifecycle: close, click, mitosis, web-open
(`Popup.close` lines 295-301, `Popup.click` lines 278-284,
`Popup.try_mitosis` lines 273-276, `Popup.try_web_open` lines 269-271,
`Popup.blacklist_media` lines 286-293)

State is the registry pair `state.popups` / `state.popup_number`
(popups identified by a number); external side effects are recorded in
order in an effect list.  Probability rolls and the possibility of the
blacklist filesystem operation raising are passed in as booleed
outcomes so that theorems quantify over them. -/

/-- The external side effects a close can cause, in program order. -/
inductive Effect where
  | blacklist : Effect
  | webOpen : Effect
  | destroy : Effect
  | callback : Effect
  | mitosis : Effect
deriving DecidableEq, Repr

/-- The registry shared by all popups: `state.popups` (a list of popup
identifiers) and the separately maintained counter `state.popup_number`. -/
structure RegState where
  popups : List ℕ
  popup_number : ℤ
deriving DecidableEq, Repr

/-- The settings and state read on the close paths, together with the
outcome of the web-open probability roll of line 270. -/
structure CloseCfg where
  web_on_popup_close : Bool
  web_roll_hit : Bool
  has_on_close : Bool
  mitosis_mode : Bool
  lowkey_mode : Bool
  mitosis_strength : ℕ
  alt_held : Bool
deriving DecidableEq, Repr

/-- `Popup.try_web_open` (lines 269-271): opens a link when the feature
is on and the roll hits. -/
def try_web_open_effects (c : CloseCfg) : List Effect :=
  if c.web_on_popup_close && c.web_roll_hit then [Effect.webOpen] else []

/-- The side effects of `Popup.close` (lines 295-301) in order:
`try_web_open`, `destroy`, then the optional `on_close` callback. -/
def close_effects (c : CloseCfg) : List Effect :=
  try_web_open_effects c ++ [Effect.destroy] ++
    (if c.has_on_close then [Effect.callback] else [])

/-- `Popup.try_mitosis` (lines 273-276): spawns `mitosis_strength`
popups when mitosis mode is on and lowkey mode is off. -/
def try_mitosis_effects (c : CloseCfg) : List Effect :=
  if c.mitosis_mode && !c.lowkey_mode then
    List.replicate c.mitosis_strength Effect.mitosis
  else []

/-- `Popup.close` (lines 295-301) as a state transformer: decrement
`popup_number`, then `popups.remove(self)` — which raises `ValueError`
when the popup is not present, in which case the remaining statements
never run (the returned flag records a propagating exception). -/
def close_run (c : CloseCfg) (p : ℕ) (s : RegState) : RegState × List Effect × Bool :=
  let s1 : RegState := ⟨s.popups, s.popup_number - 1⟩
  if p ∈ s1.popups then
    (⟨s1.popups.erase p, s1.popup_number⟩, close_effects c, false)
  else
    (s1, [], true)

/-- The fade-timeout close path (line 258 calls `self.close()`). -/
def timeout_close (c : CloseCfg) (p : ℕ) (s : RegState) : RegState × List Effect × Bool :=
  close_run c p s

/-- The pump-scare close path (line 267 schedules `self.close`). -/
def pump_scare_close (c : CloseCfg) (p : ℕ) (s : RegState) : RegState × List Effect × Bool :=
  close_run c p s

/-- `Popup.click` (lines 278-284): decrement `clicks_to_close`; at zero
or below, blacklist when alt is held (an exception there propagates and
skips the rest), then `close()`, then `try_mitosis()` (skipped if
`close()` raised).  Returns the new counter, the registry, the effects
and whether an exception propagated. -/
def click_run (c : CloseCfg) (blacklist_raises : Bool) (p : ℕ) (s : RegState)
    (clicks : ℤ) : ℤ × RegState × List Effect × Bool :=
  let clicks1 := clicks - 1
  if clicks1 ≤ 0 then
    if c.alt_held && blacklist_raises then
      (clicks1, s, [], true)
    else
      let r := close_run c p s
      (clicks1, r.1,
        (if c.alt_held then [Effect.blacklist] else []) ++ r.2.1 ++
          (if r.2.2 then [] else try_mitosis_effects c),
        r.2.2)
  else (clicks1, s, [], false)

/-! ## Claims C5, C8, C9 -/

/-- C5: `close` is not idempotent.  From the consistent state
`popups = [7]`, `popup_number = 1`, the first `close` unregisters the
popup and fires the callback once, but a second `close` decrements
`popup_number` again (to `-1`, no longer the registry size decreasing
by exactly 1) and `popups.remove` raises `ValueError`; a double close
is observably different from a single one. -/
theorem close_not_idempotent :
    close_run (CloseCfg.mk false false true false false 0 false) 7 ⟨[7], 1⟩ =
      (⟨[], 0⟩, [Effect.destroy, Effect.callback], false) ∧
    close_run (CloseCfg.mk false false true false false 0 false) 7
        (close_run (CloseCfg.mk false false true false false 0 false) 7 ⟨[7], 1⟩).1 =
      (⟨[], -1⟩, [], true) ∧
    (close_run (CloseCfg.mk false false true false false 0 false) 7
        (close_run (CloseCfg.mk false false true false false 0 false) 7 ⟨[7], 1⟩).1).1 ≠
      (close_run (CloseCfg.mk false false true false false 0 false) 7 ⟨[7], 1⟩).1 := by
  decide

/-- C8 (amended): every close path unregisters the popup (the list loses
it and the counter drops by one) and produces the web-open effect (when
the feature is on and the roll hits), the window teardown and the
optional completion callback, in that order; the mitosis side effect,
however, fires only on the click-triggered close path — after teardown —
and never on the timeout or pump-scare paths. -/
theorem close_paths_effects (c : CloseCfg) (p : ℕ) (s : RegState) (clicks : ℤ)
    (hp : p ∈ s.popups) (hc : clicks ≤ 1) :
    timeout_close c p s = (⟨s.popups.erase p, s.popup_number - 1⟩, close_effects c, false) ∧
    pump_scare_close c p s = (⟨s.popups.erase p, s.popup_number - 1⟩, close_effects c, false) ∧
    click_run c false p s clicks =
      (clicks - 1, ⟨s.popups.erase p, s.popup_number - 1⟩,
        (if c.alt_held then [Effect.blacklist] else []) ++ close_effects c ++
          try_mitosis_effects c, false) ∧
    Effect.mitosis ∉ close_effects c ∧
    (Effect.mitosis ∈ try_mitosis_effects c ↔
      (c.mitosis_mode = true ∧ c.lowkey_mode = false ∧ 0 < c.mitosis_strength)) ∧
    Effect.destroy ∈ close_effects c ∧
    (Effect.callback ∈ close_effects c ↔ c.has_on_close = true) ∧
    (Effect.webOpen ∈ close_effects c ↔
      (c.web_on_popup_close = true ∧ c.web_roll_hit = true)) := by
  have hrun : close_run c p s = (⟨s.popups.erase p, s.popup_number - 1⟩, close_effects c, false) := by
    unfold close_run
    rw [if_pos hp]
  refine ⟨hrun, hrun, ?_, ?_, ?_, ?_, ?_, ?_⟩
  · unfold click_run
    rw [if_pos (by omega), if_neg (by simp), hrun]
    simp
  · unfold close_effects try_web_open_effects
    split_ifs <;> simp
  · unfold try_mitosis_effects
    split_ifs with hm
    · simp only [Bool.and_eq_true, Bool.not_eq_true'] at hm
      simp only [List.mem_replicate, ne_eq, and_true]
      constructor
      · intro hmem
        exact ⟨hm.1, hm.2, by omega⟩
      · intro hmem
        omega
    · simp only [Bool.and_eq_true, Bool.not_eq_true'] at hm
      simp only [List.not_mem_nil, false_iff]
      intro hmem
      exact hm ⟨hmem.1, hmem.2.1⟩
  · unfold close_effects try_web_open_effects
    split_ifs <;> simp
  · unfold close_effects try_web_open_effects
    split_ifs <;> simp_all
  · unfold close_effects try_web_open_effects
    split_ifs with h1 h2 <;> simp_all

/-- C8 counterexample to the claim as stated: with mitosis mode enabled
(strength 2, lowkey off), the fade-timeout and pump-scare close paths
produce no mitosis effect at all. -/
theorem timeout_close_skips_mitosis :
    (CloseCfg.mk false false false true false 2 false).mitosis_mode = true ∧
    try_mitosis_effects (CloseCfg.mk false false false true false 2 false) ≠ [] ∧
    Effect.mitosis ∉
      (timeout_close (CloseCfg.mk false false false true false 2 false) 3 ⟨[3], 1⟩).2.1 ∧
    Effect.mitosis ∉
      (pump_scare_close (CloseCfg.mk false false false true false 2 false) 3 ⟨[3], 1⟩).2.1 := by
  decide

/-- C8 witness: the amended close-path theorem applied to a concrete
configuration (all features on, mitosis strength 2, alt held) and the
registry `popups = [3, 5]`, `popup_number = 2`, clicks counter 1. -/
theorem close_paths_effects_witness :
    ((3 ∈ ([3, 5] : List ℕ)) ∧ (1 : ℤ) ≤ 1) ∧
    (timeout_close (CloseCfg.mk true true true true false 2 true) 3 ⟨[3, 5], 2⟩ =
      (⟨([3, 5] : List ℕ).erase 3, 2 - 1⟩,
        close_effects (CloseCfg.mk true true true true false 2 true), false) ∧
     pump_scare_close (CloseCfg.mk true true true true false 2 true) 3 ⟨[3, 5], 2⟩ =
      (⟨([3, 5] : List ℕ).erase 3, 2 - 1⟩,
        close_effects (CloseCfg.mk true true true true false 2 true), false) ∧
     click_run (CloseCfg.mk true true true true false 2 true) false 3 ⟨[3, 5], 2⟩ 1 =
      (1 - 1, ⟨([3, 5] : List ℕ).erase 3, 2 - 1⟩,
        (if (CloseCfg.mk true true true true false 2 true).alt_held then [Effect.blacklist] else []) ++
          close_effects (CloseCfg.mk true true true true false 2 true) ++
          try_mitosis_effects (CloseCfg.mk true true true true false 2 true), false) ∧
     Effect.mitosis ∉ close_effects (CloseCfg.mk true true true true false 2 true) ∧
     (Effect.mitosis ∈ try_mitosis_effects (CloseCfg.mk true true true true false 2 true) ↔
       ((CloseCfg.mk true true true true false 2 true).mitosis_mode = true ∧
        (CloseCfg.mk true true true true false 2 true).lowkey_mode = false ∧
        0 < (CloseCfg.mk true true true true false 2 true).mitosis_strength)) ∧
     Effect.destroy ∈ close_effects (CloseCfg.mk true true true true false 2 true) ∧
     (Effect.callback ∈ close_effects (CloseCfg.mk true true true true false 2 true) ↔
       (CloseCfg.mk true true true true false 2 true).has_on_close = true) ∧
     (Effect.webOpen ∈ close_effects (CloseCfg.mk true true true true false 2 true) ↔
       ((CloseCfg.mk true true true true false 2 true).web_on_popup_close = true ∧
        (CloseCfg.mk true true true true false 2 true).web_roll_hit = true))) :=
  ⟨⟨by decide, by decide⟩,
    close_paths_effects (CloseCfg.mk true true true true false 2 true) 3 ⟨[3, 5], 2⟩ 1
      (by decide) (by decide)⟩

/-- C9: a failing blacklist side effect does prevent the close.  On the
close-triggering click with alt held and `clicks_to_close = 1`, if
`blacklist_media` raises (e.g. `shutil.move` fails), the exception
propagates out of `click()` before `self.close()` runs: the registry is
unchanged (the popup stays registered), no teardown and no callback
occur — contradicting the claim that the close path still completes. -/
theorem blacklist_failure_blocks_close :
    click_run (CloseCfg.mk false false true false false 0 true) true 5 ⟨[5], 1⟩ 1 =
      (0, ⟨[5], 1⟩, [], true) ∧
    (click_run (CloseCfg.mk false false true false false 0 true) false 5 ⟨[5], 1⟩ 1).2.1 =
      ⟨[], 0⟩ := by
  decide

/-! ## Fade-out (`Popup.try_timeout`, lines 251-263)

The `fade_out` thread body: `while self.opacity > 0: self.opacity -= 0.01;
self.attributes(...); sleep(0.015)` and then `self.close()`; a `TclError`
raised by `attributes` after a manual close is swallowed by the
surrounding `except`, ending the loop without calling `close()`.

In the model `fuel` bounds the number of loop iterations inspected,
`alive` is the number of `attributes` calls that still succeed before
the window is destroyed by a manual close, and the result is
`(completed ticks, final opacity field, whether close() ran)`.  When the
window dies mid-iteration the `self.opacity -= 0.01` of that iteration
has already happened, so the final field value reflects it even though
the tick never completed. -/

/-- The fade-out loop of lines 253-258. -/
def fade_out : ℕ → ℚ → ℕ → ℕ × ℚ × Bool
  | 0, o, _ => (0, o, false)
  | fuel + 1, o, alive =>
    if 0 < o then
      if alive = 0 then (0, o - 1 / 100, false)
      else
        let r := fade_out fuel (o - 1 / 100) (alive - 1)
        (r.1 + 1, r.2.1, r.2.2)
    else (0, o, true)

/-- An undisturbed fade from opacity `k / 100` performs exactly `k`
ticks, ends at opacity 0 and then calls `close()` once. -/
theorem fade_out_completes (k : ℕ) : ∀ fuel alive : ℕ, k < fuel → k ≤ alive →
    fade_out fuel ((k : ℚ) / 100) alive = (k, 0, true) := by
  induction k with
  | zero =>
    intro fuel alive hf _
    match fuel with
    | f + 1 =>
      simp [fade_out]
  | succ k ih =>
    intro fuel alive hf ha
    match fuel with
    | f + 1 =>
      have hpos : 0 < ((k : ℚ) + 1) / 100 := by positivity
      have hstep : ((k : ℕ) + 1 : ℚ) / 100 - 1 / 100 = (k : ℚ) / 100 := by
        ring
      simp only [fade_out, Nat.cast_succ]
      rw [if_pos hpos, if_neg (by omega), hstep, ih f (alive - 1) (by omega) (by omega)]

/-- A fade interrupted by a manual close after `j < k` successful ticks
stops there: `j` ticks, no `close()`, and the opacity field shows the
one extra in-flight decrement. -/
theorem fade_out_interrupted (j : ℕ) : ∀ k fuel : ℕ, j < k → j < fuel →
    fade_out fuel ((k : ℚ) / 100) j = (j, ((k : ℚ) - j - 1) / 100, false) := by
  induction j with
  | zero =>
    intro k fuel hk hf
    match fuel with
    | f + 1 =>
      have hpos : 0 < (k : ℚ) / 100 := by
        have : (1 : ℚ) ≤ (k : ℚ) := by exact_mod_cast hk
        positivity
      simp only [fade_out]
      rw [if_pos hpos]
      norm_num
      ring
  | succ j ih =>
    intro k fuel hk hf
    match fuel with
    | f + 1 =>
      have hpos : 0 < (k : ℚ) / 100 := by
        have : (1 : ℚ) ≤ (k : ℚ) := by exact_mod_cast (by omega : 1 ≤ k)
        positivity
      have hstep : (k : ℚ) / 100 - 1 / 100 = ((k - 1 : ℕ) : ℚ) / 100 := by
        rw [Nat.cast_sub (by omega)]
        push_cast
        ring
      simp only [fade_out]
      rw [if_pos hpos, if_neg (by omega), Nat.add_sub_cancel, hstep,
        ih (k - 1) f (by omega) (by omega)]
      simp only [Prod.mk.injEq]
      refine ⟨trivial, ?_, trivial⟩
      rw [Nat.cast_sub (by omega)]
      push_cast
      ring

/-! ## Claim C7 -/

/-- C7: starting from an opacity that is a whole number `k` of fade
steps (`opacity = k / 100`, as the percent-based opacity settings
produce), the fade-out loop decrements the opacity by exactly `0.01`
per tick until it reaches 0 after exactly `k` ticks, at which point
`close()` fires exactly once; a manual close after `j < k` ticks stops
the loop at `j` ticks without ever calling `close()` (the opacity field
left at `(k - j - 1)/100` by the in-flight decrement, confirming each
tick moved it by exactly `0.01`). -/
theorem fade_out_ticks (k fuel alive j : ℕ) (hf : k < fuel) (ha : k ≤ alive)
    (hj : j < k) :
    fade_out fuel ((k : ℚ) / 100) alive = (k, 0, true) ∧
    fade_out fuel ((k : ℚ) / 100) j = (j, ((k : ℚ) - j - 1) / 100, false) :=
  ⟨fade_out_completes k fuel alive hf ha,
   fade_out_interrupted j k fuel hj (by omega)⟩

/-- C7 witness: a fade from opacity `0.03` (`k = 3`) with ample fuel,
undisturbed and interrupted after one tick. -/
theorem fade_out_ticks_witness :
    (3 < 5 ∧ 3 ≤ 10 ∧ 1 < 3) ∧
    (fade_out 5 ((3 : ℕ) / 100 : ℚ) 10 = (3, 0, true) ∧
     fade_out 5 (((3 : ℕ) : ℚ) / 100) 1 = (1, (((3 : ℕ) : ℚ) - (1 : ℕ) - 1) / 100, false)) :=
  ⟨by decide, fade_out_ticks 3 5 10 1 (by decide) (by decide) (by decide)⟩

/-! ## Web-open roll (`Popup.try_web_open`, lines 269-271) -/

/-- Modelled from the spec: `roll(p)` — the probability roll helper is
imported from outside this file's sources; per the spec it gates a side
effect "governed by a probability roll" / "open URL with probability p",
i.e. it succeeds with probability `p` percent.  Modelled as a uniform
draw in `[0, 100)` landing strictly below the threshold `p`. -/
def roll (chance : ℚ) (draw : ℚ) : Bool :=
  decide (draw < chance)

/-- The probability threshold `Popup.try_web_open` passes to `roll`
(line 270): `(100 - self.settings.web_chance) / 2`. -/
def try_web_open_chance (web_chance : ℚ) : ℚ :=
  (100 - web_chance) / 2

/-- `Popup.try_web_open` (lines 269-271) with the roll draw explicit. -/
def try_web_open_fires (web_on_popup_close : Bool) (web_chance : ℚ) (draw : ℚ) : Bool :=
  web_on_popup_close && roll (try_web_open_chance web_chance) draw

/-! ## Claim C10 -/

/-- C10: with `web_on_popup_close` enabled, the open-link side effect on
close fires exactly when the uniform percent draw lands below
`(100 - web_chance) / 2` — the roll is performed on `(100 - web_chance) / 2`
percent — and that chance is antitone in the configured `web_chance`. -/
theorem try_web_open_probability (web_chance draw c1 c2 : ℚ) (hc : c1 ≤ c2) :
    (try_web_open_fires true web_chance draw = true ↔
      draw < (100 - web_chance) / 2) ∧
    try_web_open_fires false web_chance draw = false ∧
    try_web_open_chance c2 ≤ try_web_open_chance c1 := by
  refine ⟨?_, rfl, ?_⟩
  · simp [try_web_open_fires, roll, try_web_open_chance]
  · unfold try_web_open_chance
    linarith

/-- C10 witness: `web_chance = 30`, draw `20` (the roll threshold is
`35`), monotonicity instantiated at `10 ≤ 50`. -/
theorem try_web_open_probability_witness :
    ((10 : ℚ) ≤ 50) ∧
    ((try_web_open_fires true 30 20 = true ↔ (20 : ℚ) < (100 - 30) / 2) ∧
     try_web_open_fires false 30 20 = false ∧
     try_web_open_chance 50 ≤ try_web_open_chance 10) :=
  ⟨by norm_num, try_web_open_probability 30 20 10 50 (by norm_num)⟩

/-! ## Placement weights (`Popup.compute_geometry`, lines 115-129)

Per-cell weight of normal-mode placement.  The candidate rectangle is
`(sx, sy, sw, sh)`; the running weight starts at `float("inf")`
(modelled as `⊤` in `WithTop ℝ`, Python float arithmetic idealised over
`ℝ`) when `popup_number > 1` and at `1` otherwise, and the loop over the
live siblings (`self` skipped) lowers it with `min` against each
per-sibling weight.  In every consistent registry state `state.popups`
consists of the new popup itself plus its siblings, and `popup_number`
is maintained in lockstep with it, so `popup_number` equals the number
of siblings plus one; that is the `hreg` hypothesis below. -/

/-- A sibling rectangle as parsed from `popup.geometry()` (line 122),
field order `w, h, x, y` as in the parse. -/
structure Rect where
  w : ℤ
  h : ℤ
  x : ℤ
  y : ℤ
deriving DecidableEq, Repr

/-- Pixel overlap area between the candidate `(sx, sy, sw, sh)` and a
sibling rectangle (line 123). -/
def intersection (sx sy sw sh : ℤ) (r : Rect) : ℤ :=
  max 0 (min (sx + sw) (r.x + r.w) - max sx r.x) *
    max 0 (min (sy + sh) (r.y + r.h) - max sy r.y)

/-- Per-sibling candidate weight (lines 124-126):
`2 ** (32 * nonoverlap) + distance_squared` where
`nonoverlap = 1 - intersection / (sw * sh)` and `distance_squared` is
the squared distance between the rectangle centers. -/
noncomputable def sib_weight (sx sy sw sh : ℤ) (r : Rect) : ℝ :=
  (2 : ℝ) ^ (32 * (1 - (intersection sx sy sw sh r : ℝ) / ((sw : ℝ) * (sh : ℝ)))) +
    (((sx : ℝ) + (sw : ℝ) / 2 - ((r.x : ℝ) + (r.w : ℝ) / 2)) ^ 2 +
     ((sy : ℝ) + (sh : ℝ) / 2 - ((r.y : ℝ) + (r.h : ℝ) / 2)) ^ 2)

/-- The weight loop of lines 117-126 for one cell:
`weight = float("inf") if popup_number > 1 else 1`, then
`weight = min(per_sibling_weight, weight)` for every sibling. -/
noncomputable def cell_weight (popup_number : ℤ) (sx sy sw sh : ℤ)
    (siblings : List Rect) : WithTop ℝ :=
  siblings.foldl
    (fun wgt r => min ((sib_weight sx sy sw sh r : ℝ) : WithTop ℝ) wgt)
    (if 1 < popup_number then ⊤ else 1)

/-- A min-fold never exceeds its initial value. -/
theorem foldl_min_le_init {α β : Type} [LinearOrder β] (f : α → β)
    (l : List α) (i : β) :
    l.foldl (fun w a => min (f a) w) i ≤ i := by
  induction l generalizing i with
  | nil => exact le_refl i
  | cons a l ih => exact le_trans (ih (min (f a) i)) (min_le_right _ _)

/-- A min-fold never exceeds the value of any list member. -/
theorem foldl_min_le_mem {α β : Type} [LinearOrder β] (f : α → β)
    (l : List α) (a : α) :
    ∀ i : β, a ∈ l → l.foldl (fun w a => min (f a) w) i ≤ f a := by
  induction l with
  | nil =>
    intro i ha
    cases ha
  | cons b l ih =>
    intro i ha
    rcases List.mem_cons.mp ha with h | h
    · subst h
      exact le_trans (foldl_min_le_init f l _) (min_le_left _ _)
    · exact ih _ h

/-- A min-fold returns its initial value or the value of a member. -/
theorem foldl_min_eq_init_or_mem {α β : Type} [LinearOrder β] (f : α → β)
    (l : List α) (i : β) :
    l.foldl (fun w a => min (f a) w) i = i ∨
      ∃ a ∈ l, l.foldl (fun w a => min (f a) w) i = f a := by
  induction l generalizing i with
  | nil => exact Or.inl rfl
  | cons b l ih =>
    rcases ih (min (f b) i) with h | ⟨a, ha, h⟩
    · rcases min_cases (f b) i with ⟨hm, _⟩ | ⟨hm, _⟩
      · exact Or.inr ⟨b, List.mem_cons_self b l, by rw [List.foldl_cons, h, hm]⟩
      · exact Or.inl (by rw [List.foldl_cons, h, hm])
    · exact Or.inr ⟨a, List.mem_cons_of_mem _ ha, by rw [List.foldl_cons, h]⟩

/-! ## Claim C3 -/

/-- C3: in a consistent registry state (`popup_number` = number of
siblings + 1), a cell's weight is 1 when `popup_number ≤ 1` (no
siblings to avoid), and otherwise equals the minimum over all sibling
rectangles of `2 ** (32 * nonoverlap) + distance_squared`: it is the
per-sibling weight of some sibling and is at most the per-sibling
weight of every sibling. -/
theorem cell_weight_min (popup_number : ℤ) (sx sy sw sh : ℤ)
    (siblings : List Rect)
    (hreg : (siblings.length : ℤ) + 1 = popup_number) :
    (popup_number ≤ 1 → cell_weight popup_number sx sy sw sh siblings = 1) ∧
    (1 < popup_number →
      ∃ r ∈ siblings,
        cell_weight popup_number sx sy sw sh siblings =
          ((sib_weight sx sy sw sh r : ℝ) : WithTop ℝ) ∧
        ∀ r2 ∈ siblings, sib_weight sx sy sw sh r ≤ sib_weight sx sy sw sh r2) := by
  constructor
  · intro hle
    have hnil : siblings = [] := List.length_eq_zero.mp (by omega)
    subst hnil
    unfold cell_weight
    rw [if_neg (by omega)]
    rfl
  · intro hgt
    have hne : siblings ≠ [] := by
      intro hn
      rw [hn] at hreg
      simp at hreg
      omega
    unfold cell_weight
    rw [if_pos hgt]
    rcases foldl_min_eq_init_or_mem
        (fun r => ((sib_weight sx sy sw sh r : ℝ) : WithTop ℝ)) siblings ⊤ with
      h | ⟨r, hr, h⟩
    · obtain ⟨r0, hr0⟩ := List.exists_mem_of_ne_nil siblings hne
      have hle0 := foldl_min_le_mem
        (fun r => ((sib_weight sx sy sw sh r : ℝ) : WithTop ℝ)) siblings r0 ⊤ hr0
      rw [h] at hle0
      exact absurd hle0 (by simp)
    · refine ⟨r, hr, h, ?_⟩
      intro r2 hr2
      have hle2 := foldl_min_le_mem
        (fun r => ((sib_weight sx sy sw sh r : ℝ) : WithTop ℝ)) siblings r2 ⊤ hr2
      rw [h] at hle2
      exact_mod_cast
        (show ((sib_weight sx sy sw sh r : ℝ) : WithTop ℝ) ≤
            ((sib_weight sx sy sw sh r2 : ℝ) : WithTop ℝ) from hle2)

/-- C3 witness: the weight theorem applied to the candidate
`(0, 0, 10, 10)` with `popup_number = 2` and a single sibling. -/
theorem cell_weight_min_witness :
    ((([Rect.mk 5 5 3 3] : List Rect).length : ℤ) + 1 = 2) ∧
    (((2 : ℤ) ≤ 1 → cell_weight 2 0 0 10 10 [Rect.mk 5 5 3 3] = 1) ∧
     (1 < (2 : ℤ) →
       ∃ r ∈ ([Rect.mk 5 5 3 3] : List Rect),
         cell_weight 2 0 0 10 10 [Rect.mk 5 5 3 3] =
           ((sib_weight 0 0 10 10 r : ℝ) : WithTop ℝ) ∧
         ∀ r2 ∈ ([Rect.mk 5 5 3 3] : List Rect),
           sib_weight 0 0 10 10 r ≤ sib_weight 0 0 10 10 r2)) :=
  ⟨by decide, cell_weight_min 2 0 0 10 10 [Rect.mk 5 5 3 3] (by decide)⟩

end Edgeware
